import Mathlib

/-!
randpass: configuration, alphabet construction and password generation.

A shallow embedding of `internal/config/config.go`,
`internal/generator/generator.go` and, of `internal/cli/cli.go`, the constant
`defaultLength` and the symbols line of the help message.

* A Go `string` / `[]byte` is the list of its bytes (`GoString`); a string
  literal of the source stands for the bytes of its UTF-8 encoding (`goBytes`).
* A Go `error` is a `GoError`; the `nil` error is `none`.
* `crypto/rand.Read` on a one-byte buffer is a call to the random source: the
  source is the sequence of the results of its successive calls (`RandSource`),
  each a byte or an error, and every run records how many calls it made.
* A run-time panic (division by zero, index out of range, a `make` whose
  length is out of range) is an explicit outcome (`GoPanic`), so that its
  absence is a statement about the code.
* The largest length for which `make([]byte, n)` succeeds belongs to the
  platform, not to the repository: it is the parameter `maxAlloc` of
  `generateSecurePassword` and `Generate`.
-/

namespace Randpass

/-! ## Go values -/

/-- A Go string or byte slice: the sequence of its bytes. -/
abbrev GoString := List Nat

/-- The bytes of a source string literal, which Go stores UTF-8 encoded. -/
def goBytes (s : String) : GoString :=
  (s.data.flatMap String.utf8EncodeChar).map UInt8.toNat

/-- A Go error value built by `fmt.Errorf`: either from a constant message, or
from a message followed by the verb `%w` applied to the error it wraps. -/
inductive GoError where
  | errorf (msg : String)
  | wrapf (msg : String) (err : GoError)
  deriving DecidableEq, Repr

/-- The run-time panics the loop of the generator could raise. -/
inductive GoPanic where
  | divideByZero
  | indexOutOfRange
  | makesliceLenOutOfRange
  deriving DecidableEq, Repr

/-- The result of one `rand.Read` on a one-byte buffer: the byte read, or the
error returned. -/
abbrev Draw := Except GoError (Fin 256)

/-- The random source: the result of its `k`-th call, `k = 0, 1, ...`. -/
abbrev RandSource := Nat → Draw

/-- The outcome of a call that returns `(string, error)` and reads the random
source: the returned pair (or the panic raised), and the number of calls made
to the random source. -/
structure Run where
  result : Except GoPanic (GoString × Option GoError)
  draws : Nat

/-! ## internal/config/config.go -/

/-- Config holds the configuration for password generation. -/
structure Config where
  Length : Int
  NoLower : Bool
  NoUpper : Bool
  NoDigits : Bool
  NoSymbols : Bool
  Copy : Bool
  Help : Bool
  deriving DecidableEq, Repr

/-- NewConfig creates a new Config with default values. -/
def NewConfig : Config :=
  { Length := 16
    NoLower := false
    NoUpper := false
    NoDigits := false
    NoSymbols := false
    Copy := false
    Help := false }

/-- Validate checks if the configuration is valid; `none` is the nil error. -/
def Config.Validate (c : Config) : Option GoError :=
  if c.Length ≤ 0 then
    some (GoError.errorf "password length must be greater than 0")
  else if c.NoLower && c.NoUpper && c.NoDigits && c.NoSymbols then
    some (GoError.errorf "at least one character type must be enabled")
  else
    none

/-- GetEnabledCharSets returns which character sets are enabled; the Go map is
the list of its key/value entries. -/
def Config.GetEnabledCharSets (c : Config) : List (String × Bool) :=
  [ ("lower", !c.NoLower),
    ("upper", !c.NoUpper),
    ("digits", !c.NoDigits),
    ("symbols", !c.NoSymbols) ]

/-! ## internal/generator/generator.go -/

/-- The constant LowerChars. -/
def LowerChars : GoString := goBytes "abcdefghijklmnopqrstuvwxyz"

/-- The constant UpperChars. -/
def UpperChars : GoString := goBytes "ABCDEFGHIJKLMNOPQRSTUVWXYZ"

/-- The constant DigitChars. -/
def DigitChars : GoString := goBytes "0123456789"

/-- The constant SymbolChars, `!@#$%^&*()-_=+[]{}<>?/~`; the two braces are
written as the escapes x7b and x7d. -/
def SymbolChars : GoString := goBytes "!@#$%^&*()-_=+[]\x7b\x7d<>?/~"

/-- Generator handles password generation. -/
structure Generator where
  config : Config
  deriving DecidableEq, Repr

/-- New creates a new Generator with the given configuration. -/
def New (cfg : Config) : Generator :=
  { config := cfg }

/-- The method buildCharacterSet: the `strings.Builder` starts empty and each
`WriteString` appends to it. -/
def Generator.buildCharacterSet (g : Generator) : GoString :=
  let builder : GoString := []
  let builder := if !g.config.NoLower then builder ++ LowerChars else builder
  let builder := if !g.config.NoUpper then builder ++ UpperChars else builder
  let builder := if !g.config.NoDigits then builder ++ DigitChars else builder
  let builder := if !g.config.NoSymbols then builder ++ SymbolChars else builder
  builder

/-- Line 91: `randomIndex := int(randomBytes[0]) % charSetLen`, for a non-zero
`charSetLen`. -/
def randomIndex (charSetLen : Nat) (b : Fin 256) : Nat :=
  b.val % charSetLen

/-- The loop `for i := range length` of generateSecurePassword, with `n`
iterations left, loop variable `i`, the slice `password` and `d` calls made to
the random source so far. -/
def generateLoop (rnd : RandSource) (charSet : GoString) (charSetLen : Nat) :
    Nat → Nat → GoString → Nat → Run
  | 0, _, password, d => { result := .ok (password, none), draws := d }
  | n + 1, i, password, d =>
    match rnd d with
    | .error err =>
      { result := .ok ([], some (GoError.wrapf "failed to generate random bytes: " err)),
        draws := d + 1 }
    | .ok b =>
      if charSetLen = 0 then
        { result := .error GoPanic.divideByZero, draws := d + 1 }
      else
        match charSet.get? (randomIndex charSetLen b) with
        | none => { result := .error GoPanic.indexOutOfRange, draws := d + 1 }
        | some ch =>
          if i < password.length then
            generateLoop rnd charSet charSetLen n (i + 1) (password.set i ch) (d + 1)
          else
            { result := .error GoPanic.indexOutOfRange, draws := d + 1 }

/-- The method generateSecurePassword (it does not use its receiver).
`maxAlloc` is the largest length for which `make([]byte, length)` succeeds on
the platform; for a greater length `make` panics with
`makeslice: len out of range`, before the loop and so before any draw. -/
def Generator.generateSecurePassword (_g : Generator) (maxAlloc : Nat) (rnd : RandSource)
    (charSet : GoString) (length : Int) : Run :=
  if length ≤ 0 then
    { result := .ok ([], some (GoError.errorf "password length must be positive")),
      draws := 0 }
  else if charSet.length = 0 then
    { result := .ok ([], some (GoError.errorf "character set cannot be empty")),
      draws := 0 }
  else if maxAlloc < length.toNat then
    { result := .error GoPanic.makesliceLenOutOfRange, draws := 0 }
  else
    let password : GoString := List.replicate length.toNat 0
    let charSetLen := charSet.length
    generateLoop rnd charSet charSetLen length.toNat 0 password 0

/-- Generate creates a random password based on the configuration; `maxAlloc`
is the allocation limit that generateSecurePassword meets in `make`. -/
def Generator.Generate (g : Generator) (maxAlloc : Nat) (rnd : RandSource) : Run :=
  match g.config.Validate with
  | some err => { result := .ok ([], some err), draws := 0 }
  | none =>
    let charSet := g.buildCharacterSet
    if charSet.length = 0 then
      { result :=
          .ok ([], some (GoError.errorf "no character sets available for password generation")),
        draws := 0 }
    else
      let r := g.generateSecurePassword maxAlloc rnd charSet g.config.Length
      match r.result with
      | .error p => { result := .error p, draws := r.draws }
      | .ok (_, some err) =>
        { result := .ok ([], some (GoError.wrapf "failed to generate password: " err)),
          draws := r.draws }
      | .ok (password, none) => { result := .ok (password, none), draws := r.draws }

/-! ## internal/cli/cli.go -/

/-- The constant defaultLength. -/
def defaultLength : Int := 16

/-- The text that follows `Symbols: ` on its line of the format string of
showHelp, `!@#$%%^&*()-_=+[]{}<>?/`; the two braces are written as the escapes
x7b and x7d. -/
def helpSymbolsFormat : GoString := goBytes "!@#$%%^&*()-_=+[]\x7b\x7d<>?/"

/-- What fmt.Printf prints for a piece of format that holds no verb other than
`%%`: every `%%` is printed as one `%` (byte 37), every other byte as itself. -/
def renderPercent : GoString → GoString
  | 37 :: 37 :: rest => 37 :: renderPercent rest
  | b :: rest => b :: renderPercent rest
  | [] => []

/-- The symbols the help message shows under `Character Sets`. -/
def helpSymbols : GoString := renderPercent helpSymbolsFormat

/-! ## Specification-side definitions -/

/-- The byte a successful draw yielded (`0` for a failed draw). -/
def drawnByte (d : Draw) : Fin 256 :=
  match d with
  | .ok b => b
  | .error _ => 0

/-- The character of `charSet` that the byte `b` selects. -/
def pick (charSet : GoString) (b : Fin 256) : Nat :=
  charSet.getD (randomIndex charSet.length b) 0

/-- The alphabet as the specification words it: the category strings whose
exclude toggle is false, concatenated in the order lower, upper, digits,
symbols. -/
def specAlphabet (noLower noUpper noDigits noSymbols : Bool) : GoString :=
  ([ (noLower, goBytes "abcdefghijklmnopqrstuvwxyz"),
     (noUpper, goBytes "ABCDEFGHIJKLMNOPQRSTUVWXYZ"),
     (noDigits, goBytes "0123456789"),
     (noSymbols, goBytes "!@#$%^&*()-_=+[]\x7b\x7d<>?/~") ].filter
      (fun p => p.1 = false)).flatMap (fun p => p.2)

/-- The number of byte values `0..255` that select the alphabet index `i`. -/
def selectCount (charSetLen i : Nat) : Nat :=
  (List.finRange 256).countP (fun b => randomIndex charSetLen b = i)

/-- The number of byte values `0..255` for which the loop writes the byte
`ch` when it samples from `charSet`. -/
def charCount (charSet : GoString) (ch : Nat) : Nat :=
  (List.finRange 256).countP (fun b => pick charSet b = ch)

/-- The value a Go map, given by its entries, yields for the key `k`: the
stored value, or the zero value `false` when the key is absent. -/
def mapIndex (m : List (String × Bool)) (k : String) : Bool :=
  (m.lookup k).getD false

/-- The text whose characters have the given codes, one character per byte. -/
def textOfBytes (bs : GoString) : String :=
  String.mk (bs.map Char.ofNat)

/-! ## Concrete inputs -/

/-- Length = 2^63 - 1, the largest Go `int`, with only the digits enabled. -/
def cfgDigitsMaxLength : Config :=
  { Length := 9223372036854775807
    NoLower := true
    NoUpper := true
    NoDigits := false
    NoSymbols := true
    Copy := false
    Help := false }

/-- Length = 0 with every category excluded. -/
def cfgZeroAllExcluded : Config :=
  { Length := 0
    NoLower := true
    NoUpper := true
    NoDigits := true
    NoSymbols := true
    Copy := false
    Help := false }

/-- Length = 3 with only the lowercase letters enabled. -/
def cfgLowerOnly : Config :=
  { Length := 3
    NoLower := false
    NoUpper := true
    NoDigits := true
    NoSymbols := true
    Copy := false
    Help := false }

/-- The allocation limit 2^48 of the Go runtime on 64-bit platforms with 48-bit
heap addresses (linux/amd64); every platform limit is at most this. -/
def maxAlloc64 : Nat := 281474976710656

/-- A random source whose `k`-th call yields the byte `k + 27`. -/
def srcCounting : RandSource :=
  fun k => .ok (Fin.ofNat (k + 27))

/-- A random source whose call number 2 fails and whose other calls yield the
byte `k + 27`. -/
def srcFailsAtTwo : RandSource :=
  fun k => if k = 2 then .error (GoError.errorf "entropy source unavailable")
    else .ok (Fin.ofNat (k + 27))

/-- A random source all of whose calls yield the byte 84. -/
def srcAlways84 : RandSource :=
  fun _ => .ok 84

/-! ## Helper lemmas -/

theorem validate_eq_none_iff (c : Config) :
    c.Validate = none ↔
      0 < c.Length ∧ ¬ (c.NoLower = true ∧ c.NoUpper = true ∧ c.NoDigits = true ∧
        c.NoSymbols = true) := by
  rcases c with ⟨len, a, b, c, d, e, f⟩
  cases a <;> cases b <;> cases c <;> cases d <;> simp [Config.Validate]
  split <;> simp

theorem buildCharacterSet_eq (c : Config) :
    (New c).buildCharacterSet =
      (if c.NoLower then [] else LowerChars) ++ (if c.NoUpper then [] else UpperChars) ++
        (if c.NoDigits then [] else DigitChars) ++ (if c.NoSymbols then [] else SymbolChars) := by
  rcases c with ⟨len, a, b, c, d, e, f⟩
  cases a <;> cases b <;> cases c <;> cases d <;> simp [Generator.buildCharacterSet, New]

theorem take_set_succ (pw : GoString) (i ch : Nat) (hi : i < pw.length) :
    (pw.set i ch).take (i + 1) = pw.take i ++ [ch] := by
  induction pw generalizing i with
  | nil => simp at hi
  | cons x xs ih =>
    cases i with
    | zero => simp
    | succ j =>
      simp only [List.length_cons, Nat.add_lt_add_iff_right] at hi
      simp [ih j hi]

theorem generateLoop_ok (rnd : RandSource) (charSet : GoString) (hpos : 0 < charSet.length) :
    ∀ (n i : Nat) (pw : GoString) (d : Nat), i + n = pw.length →
      (∀ k, k < n → ∃ b, rnd (d + k) = .ok b) →
      generateLoop rnd charSet charSet.length n i pw d =
        { result := .ok (pw.take i ++
            (List.range n).map (fun k => pick charSet (drawnByte (rnd (d + k)))), none),
          draws := d + n } := by
  intro n
  induction n with
  | zero =>
    intro i pw d hlen _
    simp only [Nat.add_zero] at hlen
    simp [generateLoop, hlen]
  | succ n ih =>
    intro i pw d hlen hok
    obtain ⟨b, hb⟩ := hok 0 (Nat.succ_pos n)
    simp only [Nat.add_zero] at hb
    have hidx : randomIndex charSet.length b < charSet.length := Nat.mod_lt _ hpos
    have hget : charSet.get? (randomIndex charSet.length b) = some (pick charSet b) := by
      simp [pick, List.getD, List.get?_eq_getElem?, List.getElem?_eq_getElem hidx]
    have hi : i < pw.length := by omega
    have hne : charSet.length ≠ 0 := by omega
    have hrec := ih (i + 1) (pw.set i (pick charSet b)) (d + 1)
      (by simp only [List.length_set]; omega)
      (fun k hk => by
        have := hok (k + 1) (by omega)
        simpa [Nat.add_assoc, Nat.add_comm 1 k] using this)
    rw [generateLoop]
    simp only [hb, hne, if_false, hget, hi, if_true]
    have hmap : (List.range n).map (fun k => pick charSet (drawnByte (rnd (d + 1 + k)))) =
        (List.map Nat.succ (List.range n)).map
          (fun k => pick charSet (drawnByte (rnd (d + k)))) := by
      rw [List.map_map]
      apply List.map_congr_left
      intro k _
      simp [Function.comp, Nat.add_assoc, Nat.add_comm 1 k]
    rw [hrec, take_set_succ pw i _ hi, List.range_succ_eq_map, hmap]
    simp [hb, drawnByte, Nat.add_assoc, Nat.add_comm 1 n]

theorem generateLoop_fail (rnd : RandSource) (charSet : GoString) (hpos : 0 < charSet.length) :
    ∀ (n i : Nat) (pw : GoString) (d j : Nat) (err : GoError), i + n = pw.length → j < n →
      (∀ k, k < j → ∃ b, rnd (d + k) = .ok b) → rnd (d + j) = .error err →
      generateLoop rnd charSet charSet.length n i pw d =
        { result := .ok ([], some (GoError.wrapf "failed to generate random bytes: " err)),
          draws := d + j + 1 } := by
  intro n
  induction n with
  | zero =>
    intro i pw d j err _ hj
    omega
  | succ n ih =>
    intro i pw d j err hlen hj hok herr
    cases j with
    | zero =>
      simp only [Nat.add_zero] at herr
      rw [generateLoop]
      simp [herr]
    | succ j =>
      obtain ⟨b, hb⟩ := hok 0 (Nat.succ_pos j)
      simp only [Nat.add_zero] at hb
      have hidx : randomIndex charSet.length b < charSet.length := Nat.mod_lt _ hpos
      have hget : charSet.get? (randomIndex charSet.length b) = some (pick charSet b) := by
        simp [pick, List.getD, List.get?_eq_getElem?, List.getElem?_eq_getElem hidx]
      have hi : i < pw.length := by omega
      have hne : charSet.length ≠ 0 := by omega
      have hrec := ih (i + 1) (pw.set i (pick charSet b)) (d + 1) j err
        (by simp only [List.length_set]; omega) (by omega)
        (fun k hk => by
          have := hok (k + 1) (by omega)
          simpa [Nat.add_assoc, Nat.add_comm 1 k] using this)
        (by simpa [Nat.add_assoc, Nat.add_comm 1 j] using herr)
      rw [generateLoop]
      simp only [hb, hne, if_false, hget, hi, if_true]
      rw [hrec]
      congr 1
      omega

theorem LowerChars_length : LowerChars.length = 26 := by decide

theorem UpperChars_length : UpperChars.length = 26 := by decide

theorem DigitChars_length : DigitChars.length = 10 := by decide

theorem SymbolChars_length : SymbolChars.length = 23 := by decide

theorem buildCharacterSet_length_pos (c : Config) (hv : c.Validate = none) :
    0 < (New c).buildCharacterSet.length := by
  have h := (validate_eq_none_iff c).1 hv
  rw [buildCharacterSet_eq]
  rcases c with ⟨len, a, b, c, d, e, f⟩
  cases a <;> cases b <;> cases c <;> cases d <;>
    simp [LowerChars_length, UpperChars_length, DigitChars_length, SymbolChars_length] at h ⊢

theorem generate_invalid (c : Config) (maxAlloc : Nat) (rnd : RandSource) (err : GoError)
    (h : c.Validate = some err) :
    (New c).Generate maxAlloc rnd = { result := .ok ([], some err), draws := 0 } := by
  simp [Generator.Generate, New, h]

theorem generate_panic (c : Config) (maxAlloc : Nat) (rnd : RandSource)
    (hv : c.Validate = none) (hL : maxAlloc < c.Length.toNat) :
    (New c).Generate maxAlloc rnd =
      { result := .error GoPanic.makesliceLenOutOfRange, draws := 0 } := by
  have hpos := buildCharacterSet_length_pos c hv
  have hlen := ((validate_eq_none_iff c).1 hv).1
  have hne : (New c).buildCharacterSet.length ≠ 0 := by omega
  have hnl : ¬ c.Length ≤ 0 := by omega
  have hv2 : (New c).config.Validate = none := hv
  simp only [Generator.Generate, hv2, Generator.generateSecurePassword, hne, if_false]
  simp only [New] at hL ⊢
  simp only [hnl, if_false, hL, if_true]

theorem generate_ok (c : Config) (maxAlloc : Nat) (rnd : RandSource) (hv : c.Validate = none)
    (hL : c.Length.toNat ≤ maxAlloc)
    (hok : ∀ k, k < c.Length.toNat → ∃ b, rnd k = .ok b) :
    (New c).Generate maxAlloc rnd =
      { result := .ok ((List.range c.Length.toNat).map
          (fun k => pick (New c).buildCharacterSet (drawnByte (rnd k))), none),
        draws := c.Length.toNat } := by
  have hpos := buildCharacterSet_length_pos c hv
  have hlen := ((validate_eq_none_iff c).1 hv).1
  have hloop := generateLoop_ok rnd (New c).buildCharacterSet hpos c.Length.toNat 0
    (List.replicate c.Length.toNat 0) 0 (by simp) (by simpa using hok)
  have hne : (New c).buildCharacterSet.length ≠ 0 := by omega
  have hnl : ¬ c.Length ≤ 0 := by omega
  have hnp : ¬ maxAlloc < c.Length.toNat := by omega
  have hv2 : (New c).config.Validate = none := hv
  simp only [Generator.Generate, hv2, Generator.generateSecurePassword, hne, if_false]
  simp only [New] at hloop hnp ⊢
  simp only [hnl, hnp, if_false, hloop]
  simp

theorem generate_fail (c : Config) (maxAlloc : Nat) (rnd : RandSource) (j : Nat)
    (err : GoError) (hv : c.Validate = none) (hL : c.Length.toNat ≤ maxAlloc)
    (hj : j < c.Length.toNat)
    (hok : ∀ k, k < j → ∃ b, rnd k = .ok b) (herr : rnd j = .error err) :
    (New c).Generate maxAlloc rnd =
      { result := .ok ([], some (GoError.wrapf "failed to generate password: "
          (GoError.wrapf "failed to generate random bytes: " err))),
        draws := j + 1 } := by
  have hpos := buildCharacterSet_length_pos c hv
  have hlen := ((validate_eq_none_iff c).1 hv).1
  have hloop := generateLoop_fail rnd (New c).buildCharacterSet hpos c.Length.toNat 0
    (List.replicate c.Length.toNat 0) 0 j err (by simp) hj (by simpa using hok)
    (by simpa using herr)
  have hne : (New c).buildCharacterSet.length ≠ 0 := by omega
  have hnl : ¬ c.Length ≤ 0 := by omega
  have hnp : ¬ maxAlloc < c.Length.toNat := by omega
  have hv2 : (New c).config.Validate = none := hv
  simp only [Generator.Generate, hv2, Generator.generateSecurePassword, hne, if_false]
  simp only [New] at hloop hnp ⊢
  simp only [hnl, hnp, if_false, hloop]
  simp

theorem draws_dichotomy (rnd : RandSource) (n : Nat) :
    (∀ k, k < n → ∃ b, rnd k = .ok b) ∨
      ∃ j err, j < n ∧ rnd j = .error err ∧ ∀ k, k < j → ∃ b, rnd k = .ok b := by
  induction n with
  | zero =>
    left
    intro k hk
    omega
  | succ n ih =>
    rcases ih with hall | ⟨j, err, hj, herr, hbefore⟩
    · cases hn : rnd n with
      | ok b =>
        left
        intro k hk
        rcases Nat.lt_succ_iff_lt_or_eq.1 hk with h | h
        · exact hall k h
        · exact ⟨b, by rw [h, hn]⟩
      | error err =>
        right
        exact ⟨n, err, Nat.lt_succ_self n, hn, hall⟩
    · right
      exact ⟨j, err, Nat.lt_succ_of_lt hj, herr, hbefore⟩

theorem pick_mem (charSet : GoString) (hpos : 0 < charSet.length) (b : Fin 256) :
    pick charSet b ∈ charSet := by
  have hidx : randomIndex charSet.length b < charSet.length := Nat.mod_lt _ hpos
  unfold pick
  rw [List.getD_eq_getElem _ _ hidx]
  exact List.getElem_mem _

theorem validate_error_cases (c : Config) (e0 : GoError) (h : c.Validate = some e0) :
    e0 = GoError.errorf "password length must be greater than 0" ∨
      e0 = GoError.errorf "at least one character type must be enabled" := by
  unfold Config.Validate at h
  split at h
  · left
    exact (Option.some.inj h).symm
  · split at h
    · right
      exact (Option.some.inj h).symm
    · cases h

theorem generate_returns (c : Config) (maxAlloc : Nat) (rnd : RandSource)
    (hv : c.Validate = none) (hL : c.Length.toNat ≤ maxAlloc) :
    ∃ pw err, ((New c).Generate maxAlloc rnd).result = .ok (pw, err) ∧
      (∀ ch ∈ pw, ch ∈ (New c).buildCharacterSet) ∧
      ((∀ k : Nat, (k : Int) < c.Length → ∃ b, rnd k = .ok b) →
        err = none ∧ (pw.length : Int) = c.Length) ∧
      (∀ e0, err = some e0 → ∃ msg1 msg2 e1, e0 = GoError.wrapf msg1 (GoError.wrapf msg2 e1)) := by
  have hlen := ((validate_eq_none_iff c).1 hv).1
  have hpos := buildCharacterSet_length_pos c hv
  rcases draws_dichotomy rnd c.Length.toNat with hall | ⟨j, e, hj, herr, hbefore⟩
  · refine ⟨_, none, by rw [generate_ok c maxAlloc rnd hv hL hall], ?_, ?_, ?_⟩
    · intro ch hch
      rw [List.mem_map] at hch
      obtain ⟨k, _, rfl⟩ := hch
      exact pick_mem _ hpos _
    · intro _
      refine ⟨rfl, ?_⟩
      simp only [List.length_map, List.length_range]
      omega
    · intro e0 h0
      cases h0
  · refine ⟨[], _, by rw [generate_fail c maxAlloc rnd j e hv hL hj hbefore herr], ?_, ?_, ?_⟩
    · intro ch hch
      simp at hch
    · intro hok
      obtain ⟨b, hb⟩ := hok j (by omega)
      rw [hb] at herr
      cases herr
    · intro e0 h0
      exact ⟨_, _, _, (Option.some.inj h0).symm⟩

theorem generate_result_mem (c : Config) (maxAlloc : Nat) (rnd : RandSource) (pw : GoString)
    (err : Option GoError) (h : ((New c).Generate maxAlloc rnd).result = .ok (pw, err)) :
    ∀ ch ∈ pw, ch ∈ (New c).buildCharacterSet := by
  cases hv : c.Validate with
  | some e0 =>
    rw [generate_invalid c maxAlloc rnd e0 hv] at h
    simp only [Except.ok.injEq, Prod.mk.injEq] at h
    intro ch hch
    rw [← h.1] at hch
    simp at hch
  | none =>
    by_cases hL : c.Length.toNat ≤ maxAlloc
    · obtain ⟨pw2, err2, hr, hmem, _⟩ := generate_returns c maxAlloc rnd hv hL
      rw [hr] at h
      simp only [Except.ok.injEq, Prod.mk.injEq] at h
      rw [← h.1]
      exact hmem
    · rw [generate_panic c maxAlloc rnd hv (by omega)] at h
      cases h

theorem excluded_not_mem_buildCharacterSet (c : Config) :
    (c.NoLower = true → ∀ ch ∈ LowerChars, ch ∉ (New c).buildCharacterSet) ∧
    (c.NoUpper = true → ∀ ch ∈ UpperChars, ch ∉ (New c).buildCharacterSet) ∧
    (c.NoDigits = true → ∀ ch ∈ DigitChars, ch ∉ (New c).buildCharacterSet) ∧
    (c.NoSymbols = true → ∀ ch ∈ SymbolChars, ch ∉ (New c).buildCharacterSet) := by
  rw [buildCharacterSet_eq]
  rcases c with ⟨len, a, b, c, d, e, f⟩
  cases a <;> cases b <;> cases c <;> cases d <;>
    simp only [if_true, if_false, List.append_nil, List.nil_append, Bool.false_eq_true,
      false_implies, true_implies, true_and, and_true] <;>
    decide

theorem lowerChars_range : ∀ ch ∈ LowerChars, 97 ≤ ch ∧ ch ≤ 122 := by decide

theorem selectCount_eq (m i : Nat) (hm : 0 < m) (hi : i < m) :
    selectCount m i = 256 / m + if i < 256 % m then 1 else 0 := by
  have h1 : selectCount m i =
      ((List.finRange 256).map Fin.val).countP (fun b => decide (b % m = i)) := by
    rw [List.countP_map]
    rfl
  have h2 : (List.range 256).countP (fun b => decide (b % m = i)) =
      Nat.count (fun b => b ≡ i [MOD m]) 256 := by
    unfold Nat.count
    apply List.countP_congr
    intro b _
    simp [Nat.ModEq, Nat.mod_eq_of_lt hi]
  rw [h1, List.map_coe_finRange, h2, Nat.count_modEq_card 256 hm, Nat.mod_eq_of_lt hi]

/-! ## Alphabet construction -/

/-- C4: for every configuration, valid or not, buildCharacterSet returns the
concatenation, in the order lower, upper, digits, symbols, of the category
strings whose exclude toggle is false, and changing Length, Copy or Help does
not change it. -/
theorem C4_buildCharacterSet_spec (c : Config) :
    (New c).buildCharacterSet = specAlphabet c.NoLower c.NoUpper c.NoDigits c.NoSymbols ∧
      ∀ (len : Int) (cp hp : Bool),
        (New { c with Length := len, Copy := cp, Help := hp }).buildCharacterSet =
          (New c).buildCharacterSet := by
  constructor
  · rcases c with ⟨len, a, b, c, d, e, f⟩
    cases a <;> cases b <;> cases c <;> cases d <;> rfl
  · intro len cp hp
    rfl

/-! ## Validation -/

/-- C5: Validate returns an error exactly when Length <= 0 or all four exclude
toggles are true; so every positive Length is accepted as soon as one category
is enabled. -/
theorem C5_validate_error_iff (c : Config) :
    (c.Validate ≠ none ↔
      c.Length ≤ 0 ∨ (c.NoLower = true ∧ c.NoUpper = true ∧ c.NoDigits = true ∧
        c.NoSymbols = true)) ∧
    (0 < c.Length →
      (c.NoLower = false ∨ c.NoUpper = false ∨ c.NoDigits = false ∨ c.NoSymbols = false) →
      c.Validate = none) := by
  have h := validate_eq_none_iff c
  constructor
  · rw [Ne, h]
    constructor
    · intro hn
      by_cases hl : c.Length ≤ 0
      · exact Or.inl hl
      · right
        by_contra hall
        exact hn ⟨by omega, hall⟩
    · rintro (hl | hall) ⟨hpos, hnot⟩
      · omega
      · exact hnot hall
  · intro hpos hsome
    rw [h]
    refine ⟨hpos, ?_⟩
    rintro ⟨h1, h2, h3, h4⟩
    rcases hsome with h0 | h0 | h0 | h0 <;> simp_all

/-- C5 at a concrete input: Length = 2^63 - 1 with only the digits enabled is
accepted. -/
theorem C5_validate_error_iff_witness :
    0 < cfgDigitsMaxLength.Length ∧ cfgDigitsMaxLength.NoDigits = false ∧
      cfgDigitsMaxLength.Validate = none :=
  ⟨by decide, rfl,
    (C5_validate_error_iff cfgDigitsMaxLength).2 (by decide) (Or.inr (Or.inr (Or.inl rfl)))⟩

/-- C6: whenever Length <= 0 the error is the invalid-length error, also when
all four categories are excluded; the no-character-set error is reported
exactly when Length > 0 and all four exclude toggles are true. -/
theorem C6_validate_error_kind (c : Config) :
    (c.Length ≤ 0 →
      c.Validate = some (GoError.errorf "password length must be greater than 0")) ∧
    (c.Validate = some (GoError.errorf "at least one character type must be enabled") ↔
      0 < c.Length ∧ c.NoLower = true ∧ c.NoUpper = true ∧ c.NoDigits = true ∧
        c.NoSymbols = true) := by
  constructor
  · intro hl
    simp [Config.Validate, hl]
  · by_cases hl : c.Length ≤ 0
    · have hnl : ¬ 0 < c.Length := by omega
      simp [Config.Validate, hl, hnl]
    · have hpos : 0 < c.Length := by omega
      by_cases hall : (c.NoLower && c.NoUpper && c.NoDigits && c.NoSymbols) = true
      · have h2 := hall
        simp only [Bool.and_eq_true] at h2
        simp [Config.Validate, hl, hpos, h2]
      · have h2 := hall
        simp only [Bool.and_eq_true] at h2
        simp only [Config.Validate, hl, hall, if_false]
        constructor
        · intro h
          simp at h
        · rintro ⟨_, h1, h2x, h3, h4⟩
          exact absurd ⟨⟨⟨h1, h2x⟩, h3⟩, h4⟩ h2

/-- C6 at a concrete input: Length = 0 with every category excluded reports the
invalid-length error. -/
theorem C6_validate_error_kind_witness :
    cfgZeroAllExcluded.Length ≤ 0 ∧
      cfgZeroAllExcluded.Validate =
        some (GoError.errorf "password length must be greater than 0") :=
  ⟨by decide, (C6_validate_error_kind cfgZeroAllExcluded).1 (by decide)⟩

/-! ## Generation -/

/-- C1 as stated fails: the configuration with Length = 2^63 - 1 and only the
digits enabled passes Validate and every draw of the source succeeds, but with
the allocation limit 2^48 `make([]byte, length)` panics, so Generate returns
neither a nil error nor a string. -/
theorem C1_generate_length_counterexample :
    cfgDigitsMaxLength.Validate = none ∧
      (∀ k : Nat, ∃ b, srcCounting k = .ok b) ∧
      ((New cfgDigitsMaxLength).Generate maxAlloc64 srcCounting).result =
        .error GoPanic.makesliceLenOutOfRange ∧
      ¬ ∃ pw, ((New cfgDigitsMaxLength).Generate maxAlloc64 srcCounting).result =
          .ok (pw, none) ∧ (pw.length : Int) = cfgDigitsMaxLength.Length := by
  have hp := generate_panic cfgDigitsMaxLength maxAlloc64 srcCounting (by decide) (by decide)
  refine ⟨by decide, fun _ => ⟨_, rfl⟩, by rw [hp], ?_⟩
  rintro ⟨pw, h, _⟩
  rw [hp] at h
  cases h

/-- C1 amended: for every configuration on which Validate succeeds and whose
Length does not exceed the allocation limit of `make`, and every run in which
the draws for the positions 0 .. Length-1 all succeed, Generate returns a nil
error and a string of exactly Length bytes. -/
theorem C1_generate_length (c : Config) (maxAlloc : Nat) (rnd : RandSource)
    (hv : c.Validate = none) (hL : c.Length ≤ (maxAlloc : Int))
    (hok : ∀ k : Nat, (k : Int) < c.Length → ∃ b, rnd k = .ok b) :
    ∃ pw, ((New c).Generate maxAlloc rnd).result = .ok (pw, none) ∧
      (pw.length : Int) = c.Length := by
  have hlen := ((validate_eq_none_iff c).1 hv).1
  have h := generate_ok c maxAlloc rnd hv (by omega) (fun k hk => hok k (by omega))
  refine ⟨_, by rw [h], ?_⟩
  simp only [List.length_map, List.length_range]
  omega

/-- C1 amended, at a concrete input: three lowercase letters from the bytes 27,
28, 29. -/
theorem C1_generate_length_witness :
    cfgLowerOnly.Validate = none ∧ cfgLowerOnly.Length ≤ (maxAlloc64 : Int) ∧
      ∃ pw, ((New cfgLowerOnly).Generate maxAlloc64 srcCounting).result = .ok (pw, none) ∧
        (pw.length : Int) = cfgLowerOnly.Length :=
  ⟨by decide, by decide,
    C1_generate_length cfgLowerOnly maxAlloc64 srcCounting (by decide) (by decide)
      (fun _ _ => ⟨_, rfl⟩)⟩

/-- C2: for every valid configuration, every allocation limit and every random
source, every byte of a string returned by Generate occurs in
buildCharacterSet of that configuration; and when Length is within the
allocation limit Generate does return: with a nil error and a string of Length
bytes when the draws for the positions 0 .. Length-1 succeed, so the statement
is about a full password. -/
theorem C2_generate_chars_in_alphabet (c : Config) (maxAlloc : Nat) (rnd : RandSource)
    (hv : c.Validate = none) :
    (∀ pw err, ((New c).Generate maxAlloc rnd).result = .ok (pw, err) →
      ∀ ch ∈ pw, ch ∈ (New c).buildCharacterSet) ∧
    (c.Length ≤ (maxAlloc : Int) →
      ∃ pw err, ((New c).Generate maxAlloc rnd).result = .ok (pw, err) ∧
        (∀ ch ∈ pw, ch ∈ (New c).buildCharacterSet) ∧
        ((∀ k : Nat, (k : Int) < c.Length → ∃ b, rnd k = .ok b) →
          err = none ∧ (pw.length : Int) = c.Length)) := by
  have hlen := ((validate_eq_none_iff c).1 hv).1
  have hpos := buildCharacterSet_length_pos c hv
  refine ⟨fun pw err h => generate_result_mem c maxAlloc rnd pw err h, ?_⟩
  intro hL
  have hL2 : c.Length.toNat ≤ maxAlloc := by omega
  rcases draws_dichotomy rnd c.Length.toNat with hall | ⟨j, e, hj, herr, hbefore⟩
  · refine ⟨_, none, by rw [generate_ok c maxAlloc rnd hv hL2 hall], ?_, ?_⟩
    · intro ch hch
      rw [List.mem_map] at hch
      obtain ⟨k, _, rfl⟩ := hch
      exact pick_mem _ hpos _
    · intro _
      refine ⟨rfl, ?_⟩
      simp only [List.length_map, List.length_range]
      omega
  · refine ⟨[], _, by rw [generate_fail c maxAlloc rnd j e hv hL2 hj hbefore herr], ?_, ?_⟩
    · intro ch hch
      simp at hch
    · intro hok
      obtain ⟨b, hb⟩ := hok j (by omega)
      rw [hb] at herr
      cases herr

/-- C2 at a concrete input: the three bytes returned for the lowercase-only
configuration are lowercase letters. -/
theorem C2_generate_chars_in_alphabet_witness :
    cfgLowerOnly.Validate = none ∧ cfgLowerOnly.Length ≤ (maxAlloc64 : Int) ∧
      ∃ pw err, ((New cfgLowerOnly).Generate maxAlloc64 srcCounting).result = .ok (pw, err) ∧
        (∀ ch ∈ pw, ch ∈ (New cfgLowerOnly).buildCharacterSet) ∧
        ((∀ k : Nat, (k : Int) < cfgLowerOnly.Length → ∃ b, srcCounting k = .ok b) →
          err = none ∧ (pw.length : Int) = cfgLowerOnly.Length) :=
  ⟨by decide, by decide,
    (C2_generate_chars_in_alphabet cfgLowerOnly maxAlloc64 srcCounting (by decide)).2
      (by decide)⟩

/-- C3: for every valid configuration, every allocation limit and every random
source, no byte of the string of an excluded category appears in a string
returned by Generate, and with NoUpper, NoDigits and NoSymbols set every byte
of it is a lowercase letter a-z; and when Length is within the allocation limit
Generate does return, a full password with nil error when the draws for the
positions 0 .. Length-1 succeed. -/
theorem C3_excluded_category_absent (c : Config) (maxAlloc : Nat) (rnd : RandSource)
    (hv : c.Validate = none) :
    (∀ pw err, ((New c).Generate maxAlloc rnd).result = .ok (pw, err) →
      (c.NoLower = true → ∀ ch ∈ LowerChars, ch ∉ pw) ∧
      (c.NoUpper = true → ∀ ch ∈ UpperChars, ch ∉ pw) ∧
      (c.NoDigits = true → ∀ ch ∈ DigitChars, ch ∉ pw) ∧
      (c.NoSymbols = true → ∀ ch ∈ SymbolChars, ch ∉ pw) ∧
      (c.NoUpper = true → c.NoDigits = true → c.NoSymbols = true →
        ∀ ch ∈ pw, 97 ≤ ch ∧ ch ≤ 122)) ∧
    (c.Length ≤ (maxAlloc : Int) →
      ∃ pw err, ((New c).Generate maxAlloc rnd).result = .ok (pw, err) ∧
        ((∀ k : Nat, (k : Int) < c.Length → ∃ b, rnd k = .ok b) →
          err = none ∧ (pw.length : Int) = c.Length)) := by
  have hlen := ((validate_eq_none_iff c).1 hv).1
  obtain ⟨hL, hU, hD, hS⟩ := excluded_not_mem_buildCharacterSet c
  constructor
  · intro pw err h
    have hmem := generate_result_mem c maxAlloc rnd pw err h
    refine ⟨?_, ?_, ?_, ?_, ?_⟩
    · exact fun h ch hch hin => hL h ch hch (hmem ch hin)
    · exact fun h ch hch hin => hU h ch hch (hmem ch hin)
    · exact fun h ch hch hin => hD h ch hch (hmem ch hin)
    · exact fun h ch hch hin => hS h ch hch (hmem ch hin)
    · intro h1 h2 h3 ch hin
      have hb := hmem ch hin
      have hno : c.NoLower = false := by
        have := ((validate_eq_none_iff c).1 hv).2
        cases hc : c.NoLower
        · rfl
        · exact absurd ⟨hc, h1, h2, h3⟩ this
      rw [buildCharacterSet_eq, h1, h2, h3, hno] at hb
      simp only [if_true, List.append_nil, Bool.false_eq_true, if_false] at hb
      exact lowerChars_range ch hb
  · intro hlim
    obtain ⟨pw, err, hr, _, hfull, _⟩ := generate_returns c maxAlloc rnd hv (by omega)
    exact ⟨pw, err, hr, hfull⟩

/-- C3 at a concrete input: the password drawn for the lowercase-only
configuration from the bytes 27, 28, 29 is returned in full and holds no
uppercase letter, digit or symbol. -/
theorem C3_excluded_category_absent_witness :
    cfgLowerOnly.Validate = none ∧ cfgLowerOnly.Length ≤ (maxAlloc64 : Int) ∧
      (∃ pw err, ((New cfgLowerOnly).Generate maxAlloc64 srcCounting).result = .ok (pw, err) ∧
        ((∀ k : Nat, (k : Int) < cfgLowerOnly.Length → ∃ b, srcCounting k = .ok b) →
          err = none ∧ (pw.length : Int) = cfgLowerOnly.Length)) ∧
      (∀ pw err, ((New cfgLowerOnly).Generate maxAlloc64 srcCounting).result = .ok (pw, err) →
        ∀ ch ∈ UpperChars, ch ∉ pw) :=
  ⟨by decide, by decide,
    (C3_excluded_category_absent cfgLowerOnly maxAlloc64 srcCounting (by decide)).2 (by decide),
    fun pw err h =>
      ((C3_excluded_category_absent cfgLowerOnly maxAlloc64 srcCounting (by decide)).1
        pw err h).2.1 rfl⟩

/-! ## Failures -/

/-- C7: when Validate fails, Generate returns the empty string together with
exactly the error value Validate returned, and makes no call to the random
source, whatever the allocation limit. -/
theorem C7_generate_returns_validate_error (c : Config) (maxAlloc : Nat) (rnd : RandSource)
    (err : GoError) (h : c.Validate = some err) :
    ((New c).Generate maxAlloc rnd).result = .ok ([], some err) ∧
      ((New c).Generate maxAlloc rnd).draws = 0 := by
  have hg : (New c).config.Validate = some err := h
  constructor <;> simp [Generator.Generate, hg]

/-- C7 at a concrete input: Length = 0 yields the invalid-length error of
Validate, no string and no draw. -/
theorem C7_generate_returns_validate_error_witness :
    cfgZeroAllExcluded.Validate =
        some (GoError.errorf "password length must be greater than 0") ∧
      ((New cfgZeroAllExcluded).Generate maxAlloc64 srcCounting).result =
        .ok ([], some (GoError.errorf "password length must be greater than 0")) ∧
      ((New cfgZeroAllExcluded).Generate maxAlloc64 srcCounting).draws = 0 :=
  ⟨by decide,
    C7_generate_returns_validate_error cfgZeroAllExcluded maxAlloc64 srcCounting _ (by decide)⟩

/-- C8: whenever Generate returns a non-nil error, for any configuration, any
allocation limit and any random source, the string it returns is empty; in
particular when the draw for position j fails after j successful draws on a
valid configuration, whatever Generate returns carries the empty string, none
of the j chosen bytes, and with Length within the allocation limit it does
return an error with the empty string. -/
theorem C8_no_string_with_error (c : Config) (maxAlloc : Nat) (rnd : RandSource) :
    (∀ pw err, ((New c).Generate maxAlloc rnd).result = .ok (pw, some err) → pw = []) ∧
    (c.Validate = none → ∀ (j : Nat) (e : GoError), (j : Int) < c.Length →
      (∀ k, k < j → ∃ b, rnd k = .ok b) → rnd j = .error e →
      (∀ pw err, ((New c).Generate maxAlloc rnd).result = .ok (pw, err) → pw = []) ∧
      (c.Length ≤ (maxAlloc : Int) →
        ∃ err, ((New c).Generate maxAlloc rnd).result = .ok ([], some err))) := by
  constructor
  · intro pw err h
    cases hv : c.Validate with
    | some e0 =>
      rw [generate_invalid c maxAlloc rnd e0 hv] at h
      simp only [Except.ok.injEq, Prod.mk.injEq] at h
      exact h.1.symm
    | none =>
      by_cases hL : c.Length.toNat ≤ maxAlloc
      · rcases draws_dichotomy rnd c.Length.toNat with hall | ⟨j, e, hj, herr, hbefore⟩
        · rw [generate_ok c maxAlloc rnd hv hL hall] at h
          simp at h
        · rw [generate_fail c maxAlloc rnd j e hv hL hj hbefore herr] at h
          simp only [Except.ok.injEq, Prod.mk.injEq] at h
          exact h.1.symm
      · rw [generate_panic c maxAlloc rnd hv (by omega)] at h
        cases h
  · intro hv j e hj hbefore herr
    constructor
    · intro pw err h
      by_cases hL : c.Length.toNat ≤ maxAlloc
      · rw [generate_fail c maxAlloc rnd j e hv hL (by omega) hbefore herr] at h
        simp only [Except.ok.injEq, Prod.mk.injEq] at h
        exact h.1.symm
      · rw [generate_panic c maxAlloc rnd hv (by omega)] at h
        cases h
    · intro hL
      exact ⟨_, by rw [generate_fail c maxAlloc rnd j e hv (by omega) (by omega) hbefore herr]⟩

/-- C8 at a concrete input: the source fails at the third draw, after two bytes
were chosen, and the returned string is empty. -/
theorem C8_no_string_with_error_witness :
    cfgLowerOnly.Validate = none ∧ cfgLowerOnly.Length ≤ (maxAlloc64 : Int) ∧
      ∃ err, ((New cfgLowerOnly).Generate maxAlloc64 srcFailsAtTwo).result =
        .ok ([], some err) :=
  ⟨by decide, by decide,
    ((C8_no_string_with_error cfgLowerOnly maxAlloc64 srcFailsAtTwo).2 (by decide) 2
      (GoError.errorf "entropy source unavailable") (by decide)
      (fun k hk => ⟨Fin.ofNat (k + 27), by
        have hk2 : k ≠ 2 := by omega
        simp [srcFailsAtTwo, hk2]⟩)
      rfl).2 (by decide)⟩

/-- C9 as stated fails: the configuration with Length = 2^63 - 1 and only the
digits enabled passes Validate and the draw number 2 of the source fails after
two successful draws, but with the allocation limit 2^48 `make` panics before
any draw: Generate returns no error value and has made no call to the source. -/
theorem C9_generate_fails_counterexample :
    cfgDigitsMaxLength.Validate = none ∧
      ((2 : Nat) : Int) < cfgDigitsMaxLength.Length ∧
      (∀ k, k < 2 → ∃ b, srcFailsAtTwo k = .ok b) ∧
      srcFailsAtTwo 2 = .error (GoError.errorf "entropy source unavailable") ∧
      ((New cfgDigitsMaxLength).Generate maxAlloc64 srcFailsAtTwo).result =
        .error GoPanic.makesliceLenOutOfRange ∧
      ((New cfgDigitsMaxLength).Generate maxAlloc64 srcFailsAtTwo).draws = 0 ∧
      ¬ ∃ pw err, ((New cfgDigitsMaxLength).Generate maxAlloc64 srcFailsAtTwo).result =
          .ok (pw, some err) := by
  have hp := generate_panic cfgDigitsMaxLength maxAlloc64 srcFailsAtTwo (by decide)
    (by decide)
  refine ⟨by decide, by decide, ?_, rfl, by rw [hp], by rw [hp], ?_⟩
  · intro k hk
    have hk2 : k ≠ 2 := by omega
    exact ⟨Fin.ofNat (k + 27), by simp [srcFailsAtTwo, hk2]⟩
  · rintro ⟨pw, err, h⟩
    rw [hp] at h
    cases h

/-- C9 amended: for a configuration whose Length does not exceed the
allocation limit of `make`, Generate returns a non-nil error if and only if
Validate fails or the draw for one of the positions 0 .. Length-1 fails; on a
valid such configuration whose first failing draw is number j < Length,
Generate returns the empty string and the error of the source wrapped twice by
fmt.Errorf, having made exactly j + 1 calls to the random source (no further
draw, no retry). -/
theorem C9_generate_fails_iff (c : Config) (maxAlloc : Nat) (rnd : RandSource)
    (hL : c.Length ≤ (maxAlloc : Int)) :
    ((∃ pw err, ((New c).Generate maxAlloc rnd).result = .ok (pw, some err)) ↔
      (c.Validate ≠ none ∨ ∃ k : Nat, (k : Int) < c.Length ∧ ∃ e, rnd k = .error e)) ∧
    (c.Validate = none → ∀ (j : Nat) (e : GoError), (j : Int) < c.Length →
      (∀ k, k < j → ∃ b, rnd k = .ok b) → rnd j = .error e →
      ((New c).Generate maxAlloc rnd).result =
          .ok ([], some (GoError.wrapf "failed to generate password: "
            (GoError.wrapf "failed to generate random bytes: " e))) ∧
        ((New c).Generate maxAlloc rnd).draws = j + 1) := by
  have hL2 : c.Length.toNat ≤ maxAlloc := by omega
  constructor
  · constructor
    · rintro ⟨pw, err, h⟩
      cases hv : c.Validate with
      | some e0 =>
        left
        simp
      | none =>
        right
        rcases draws_dichotomy rnd c.Length.toNat with hall | ⟨j, e, hj, herr, _⟩
        · rw [generate_ok c maxAlloc rnd hv hL2 hall] at h
          simp at h
        · exact ⟨j, by omega, e, herr⟩
    · rintro (hv | ⟨k, hk, e, he⟩)
      · cases hv2 : c.Validate with
        | none => exact absurd hv2 hv
        | some e0 => exact ⟨[], e0, by rw [generate_invalid c maxAlloc rnd e0 hv2]⟩
      · cases hv : c.Validate with
        | some e0 => exact ⟨[], e0, by rw [generate_invalid c maxAlloc rnd e0 hv]⟩
        | none =>
          rcases draws_dichotomy rnd c.Length.toNat with hall | ⟨j, e2, hj, herr, hbefore⟩
          · obtain ⟨b, hb⟩ := hall k (by omega)
            rw [hb] at he
            cases he
          · exact ⟨[], _, by rw [generate_fail c maxAlloc rnd j e2 hv hL2 hj hbefore herr]⟩
  · intro hv j e hj hbefore herr
    rw [generate_fail c maxAlloc rnd j e hv hL2 (by omega) hbefore herr]
    exact ⟨rfl, rfl⟩

/-- C9 amended, at a concrete input: with three positions and a source failing
at its third call, Generate makes exactly three calls and returns the wrapped
error. -/
theorem C9_generate_fails_iff_witness :
    cfgLowerOnly.Length ≤ (maxAlloc64 : Int) ∧ cfgLowerOnly.Validate = none ∧
      ((New cfgLowerOnly).Generate maxAlloc64 srcFailsAtTwo).result =
          .ok ([], some (GoError.wrapf "failed to generate password: "
            (GoError.wrapf "failed to generate random bytes: "
              (GoError.errorf "entropy source unavailable")))) ∧
        ((New cfgLowerOnly).Generate maxAlloc64 srcFailsAtTwo).draws = 2 + 1 :=
  ⟨by decide, by decide,
    (C9_generate_fails_iff cfgLowerOnly maxAlloc64 srcFailsAtTwo (by decide)).2 (by decide) 2
      (GoError.errorf "entropy source unavailable") (by decide)
      (fun k hk => ⟨Fin.ofNat (k + 27), by
        have hk2 : k ≠ 2 := by omega
        simp [srcFailsAtTwo, hk2]⟩)
      rfl⟩

/-! ## Sampling -/

/-- C10 as stated fails: the default configuration is valid, its alphabet has
85 bytes, index 0 is selected by the four byte values 0, 85, 170, 255 and
index 84 by the three byte values 84, 169, 254. -/
theorem C10_uniform_counterexample :
    NewConfig.Validate = none ∧
      (New NewConfig).buildCharacterSet.length = 85 ∧
      selectCount (New NewConfig).buildCharacterSet.length 0 = 4 ∧
      selectCount (New NewConfig).buildCharacterSet.length 84 = 3 ∧
      ¬ (∀ c : Config, c.Validate = none → ∀ i j : Nat,
          i < (New c).buildCharacterSet.length → j < (New c).buildCharacterSet.length →
          selectCount (New c).buildCharacterSet.length i =
            selectCount (New c).buildCharacterSet.length j) := by
  have hlen : (New NewConfig).buildCharacterSet.length = 85 := by decide
  have h0 : selectCount (New NewConfig).buildCharacterSet.length 0 = 4 := by
    rw [hlen, selectCount_eq 85 0 (by decide) (by decide)]
    decide
  have h84 : selectCount (New NewConfig).buildCharacterSet.length 84 = 3 := by
    rw [hlen, selectCount_eq 85 84 (by decide) (by decide)]
    decide
  refine ⟨by decide, by decide, h0, h84, ?_⟩
  intro h
  have := h NewConfig (by decide) 0 84 (by decide) (by decide)
  rw [h0, h84] at this
  exact absurd this (by decide)

/-- C10 amended: for every valid configuration with alphabet size
n = len(buildCharacterSet), the alphabet index i < n is selected by exactly
256 / n byte values, plus one when i < 256 mod n; so the numbers of byte values
selecting two indices i and j differ by at most one, and are equal exactly when
i and j lie on the same side of 256 mod n. -/
theorem C10_select_count (c : Config) (hv : c.Validate = none) (i j : Nat)
    (hi : i < (New c).buildCharacterSet.length) (hj : j < (New c).buildCharacterSet.length) :
    selectCount (New c).buildCharacterSet.length i =
        256 / (New c).buildCharacterSet.length +
          (if i < 256 % (New c).buildCharacterSet.length then 1 else 0) ∧
      selectCount (New c).buildCharacterSet.length i ≤
        selectCount (New c).buildCharacterSet.length j + 1 ∧
      (selectCount (New c).buildCharacterSet.length i =
          selectCount (New c).buildCharacterSet.length j ↔
        (i < 256 % (New c).buildCharacterSet.length ↔
          j < 256 % (New c).buildCharacterSet.length)) := by
  have hpos := buildCharacterSet_length_pos c hv
  rw [selectCount_eq _ i hpos hi, selectCount_eq _ j hpos hj]
  refine ⟨rfl, ?_, ?_⟩
  · split_ifs <;> omega
  · split_ifs with h1 h2 h2 <;> simp [h1, h2]

/-- C10 amended, at a concrete input: the default configuration, indices 0 and
84. -/
theorem C10_select_count_witness :
    NewConfig.Validate = none ∧
      selectCount (New NewConfig).buildCharacterSet.length 0 ≤
        selectCount (New NewConfig).buildCharacterSet.length 84 + 1 :=
  ⟨by decide, (C10_select_count NewConfig (by decide) 0 84 (by decide) (by decide)).2.1⟩

/-! ## Sizes and defaults -/

/-- C11: the category strings have 26, 26, 10 and 23 bytes, which is also the
number of characters of their literals; for every configuration the alphabet
length is the sum of the sizes of the enabled categories, and with all four
enabled it is 26 + 26 + 10 + 23 = 85. -/
theorem C11_alphabet_size (c : Config) :
    (LowerChars.length = 26 ∧ UpperChars.length = 26 ∧ DigitChars.length = 10 ∧
      SymbolChars.length = 23) ∧
    ("abcdefghijklmnopqrstuvwxyz".length = 26 ∧ "ABCDEFGHIJKLMNOPQRSTUVWXYZ".length = 26 ∧
      "0123456789".length = 10 ∧ "!@#$%^&*()-_=+[]\x7b\x7d<>?/~".length = 23) ∧
    (New c).buildCharacterSet.length =
      (if c.NoLower then 0 else 26) + (if c.NoUpper then 0 else 26) +
        (if c.NoDigits then 0 else 10) + (if c.NoSymbols then 0 else 23) ∧
    (c.NoLower = false → c.NoUpper = false → c.NoDigits = false → c.NoSymbols = false →
      (New c).buildCharacterSet.length = 85) := by
  have hsum : (New c).buildCharacterSet.length =
      (if c.NoLower then 0 else 26) + (if c.NoUpper then 0 else 26) +
        (if c.NoDigits then 0 else 10) + (if c.NoSymbols then 0 else 23) := by
    rw [buildCharacterSet_eq]
    rcases c with ⟨len, a, b, c, d, e, f⟩
    cases a <;> cases b <;> cases c <;> cases d <;>
      simp [LowerChars_length, UpperChars_length, DigitChars_length, SymbolChars_length]
  refine ⟨⟨LowerChars_length, UpperChars_length, DigitChars_length, SymbolChars_length⟩,
    ⟨by decide, by decide, by decide, by decide⟩, hsum, ?_⟩
  intro h1 h2 h3 h4
  rw [hsum, h1, h2, h3, h4]
  rfl

/-- C11 at a concrete input: the default configuration has an alphabet of 85
bytes. -/
theorem C11_alphabet_size_witness :
    NewConfig.NoLower = false ∧ NewConfig.NoUpper = false ∧ NewConfig.NoDigits = false ∧
      NewConfig.NoSymbols = false ∧ (New NewConfig).buildCharacterSet.length = 85 :=
  ⟨rfl, rfl, rfl, rfl, (C11_alphabet_size NewConfig).2.2.2 rfl rfl rfl rfl⟩

/-- C13: NewConfig has Length = 16 (the defaultLength of the command line) and
all of NoLower, NoUpper, NoDigits, NoSymbols, Copy and Help false; it passes
Validate and its alphabet is the concatenation lower, upper, digits, symbols. -/
theorem C13_newConfig_defaults :
    NewConfig.Length = 16 ∧ NewConfig.Length = defaultLength ∧
      NewConfig.NoLower = false ∧ NewConfig.NoUpper = false ∧ NewConfig.NoDigits = false ∧
      NewConfig.NoSymbols = false ∧ NewConfig.Copy = false ∧ NewConfig.Help = false ∧
      NewConfig.Validate = none ∧
      (New NewConfig).buildCharacterSet =
        LowerChars ++ UpperChars ++ DigitChars ++ SymbolChars := by
  refine ⟨rfl, rfl, rfl, rfl, rfl, rfl, rfl, rfl, by decide, ?_⟩
  rw [buildCharacterSet_eq]
  rfl

/-- C14: for every configuration GetEnabledCharSets returns a map with exactly
the four keys lower, upper, digits, symbols, each once, mapped to the negation
of NoLower, NoUpper, NoDigits, NoSymbols; so for Length > 0 Validate fails
exactly when no entry of the map is true. -/
theorem C14_getEnabledCharSets (c : Config) :
    (∀ k, k ∈ c.GetEnabledCharSets.map Prod.fst ↔
      (k = "lower" ∨ k = "upper" ∨ k = "digits" ∨ k = "symbols")) ∧
    (c.GetEnabledCharSets.map Prod.fst).Nodup ∧
    mapIndex c.GetEnabledCharSets "lower" = !c.NoLower ∧
    mapIndex c.GetEnabledCharSets "upper" = !c.NoUpper ∧
    mapIndex c.GetEnabledCharSets "digits" = !c.NoDigits ∧
    mapIndex c.GetEnabledCharSets "symbols" = !c.NoSymbols ∧
    (0 < c.Length →
      (c.Validate ≠ none ↔ ∀ e ∈ c.GetEnabledCharSets, e.2 = false)) := by
  refine ⟨?_, ?_, ?_, ?_, ?_, ?_, ?_⟩
  · intro k
    simp [Config.GetEnabledCharSets]
  · simp only [Config.GetEnabledCharSets, List.map_cons, List.map_nil]
    decide
  · simp [mapIndex, Config.GetEnabledCharSets, List.lookup]
  · simp [mapIndex, Config.GetEnabledCharSets, List.lookup]
  · simp [mapIndex, Config.GetEnabledCharSets, List.lookup]
  · simp [mapIndex, Config.GetEnabledCharSets, List.lookup]
  · intro hpos
    rw [Ne, validate_eq_none_iff]
    simp only [Config.GetEnabledCharSets, List.mem_cons, List.mem_singleton, List.not_mem_nil,
      or_false]
    constructor
    · intro h e he
      have hall : c.NoLower = true ∧ c.NoUpper = true ∧ c.NoDigits = true ∧
          c.NoSymbols = true := by
        by_contra hn
        exact h ⟨hpos, hn⟩
      rcases he with rfl | rfl | rfl | rfl <;> simp [hall.1, hall.2.1, hall.2.2.1, hall.2.2.2]
    · intro h ⟨_, hn⟩
      apply hn
      have h1 := h ("lower", !c.NoLower) (Or.inl rfl)
      have h2 := h ("upper", !c.NoUpper) (Or.inr (Or.inl rfl))
      have h3 := h ("digits", !c.NoDigits) (Or.inr (Or.inr (Or.inl rfl)))
      have h4 := h ("symbols", !c.NoSymbols) (Or.inr (Or.inr (Or.inr rfl)))
      simp only [Bool.not_eq_false'] at h1 h2 h3 h4
      exact ⟨h1, h2, h3, h4⟩

/-- C14 at a concrete input: for Length = 3 with only lower enabled, the map
has a true entry and Validate succeeds. -/
theorem C14_getEnabledCharSets_witness :
    0 < cfgLowerOnly.Length ∧
      (cfgLowerOnly.Validate ≠ none ↔ ∀ e ∈ cfgLowerOnly.GetEnabledCharSets, e.2 = false) :=
  ⟨by decide, (C14_getEnabledCharSets cfgLowerOnly).2.2.2.2.2.2 (by decide)⟩

/-! ## Further helper lemmas -/

theorem buildCharacterSet_length_eq (c : Config) :
    (New c).buildCharacterSet.length =
      (if c.NoLower then 0 else 26) + (if c.NoUpper then 0 else 26) +
        (if c.NoDigits then 0 else 10) + (if c.NoSymbols then 0 else 23) := by
  rw [buildCharacterSet_eq]
  rcases c with ⟨len, a, b, c, d, e, f⟩
  cases a <;> cases b <;> cases c <;> cases d <;>
    simp [LowerChars_length, UpperChars_length, DigitChars_length, SymbolChars_length]

theorem buildCharacterSet_not_dvd (c : Config) (hv : c.Validate = none) :
    ¬ (New c).buildCharacterSet.length ∣ 256 := by
  have h := ((validate_eq_none_iff c).1 hv).2
  rw [buildCharacterSet_length_eq]
  rcases c with ⟨len, a, b, c, d, e, f⟩
  cases a <;> cases b <;> cases c <;> cases d <;> simp at h ⊢ <;> decide

theorem buildCharacterSet_nodup (c : Config) : (New c).buildCharacterSet.Nodup := by
  rw [buildCharacterSet_eq]
  rcases c with ⟨len, a, b, c, d, e, f⟩
  cases a <;> cases b <;> cases c <;> cases d <;>
    simp only [if_true, if_false, List.append_nil, List.nil_append, Bool.false_eq_true] <;>
    decide

theorem buildCharacterSet_printable (c : Config) :
    ∀ b ∈ (New c).buildCharacterSet, 33 ≤ b ∧ b ≤ 126 := by
  rw [buildCharacterSet_eq]
  rcases c with ⟨len, a, b, c, d, e, f⟩
  cases a <;> cases b <;> cases c <;> cases d <;>
    simp only [if_true, if_false, List.append_nil, List.nil_append, Bool.false_eq_true] <;>
    decide

theorem encode_ascii : ∀ b, b < 128 →
    (String.utf8EncodeChar (Char.ofNat b)).map UInt8.toNat = [b] := by
  decide

theorem goBytes_textOfBytes (bs : GoString) (h : ∀ b ∈ bs, b < 128) :
    goBytes (textOfBytes bs) = bs ∧ (textOfBytes bs).length = bs.length := by
  constructor
  · induction bs with
    | nil => rfl
    | cons x xs ih =>
      have hx := encode_ascii x (h x (List.mem_cons_self x xs))
      have hxs := ih (fun b hb => h b (List.mem_cons_of_mem x hb))
      simp only [goBytes, textOfBytes, List.map_cons, List.flatMap_cons, List.map_append] at hxs ⊢
      rw [hx, hxs]
      rfl
  · simp [textOfBytes, String.length]

theorem pick_eq_get (charSet : GoString) (b : Fin 256)
    (h : randomIndex charSet.length b < charSet.length) :
    pick charSet b = charSet.get ⟨randomIndex charSet.length b, h⟩ := by
  unfold pick
  rw [List.getD_eq_getElem _ _ h]
  rfl

theorem charCount_eq_selectCount (charSet : GoString) (hnd : charSet.Nodup) (i : Nat)
    (hi : i < charSet.length) :
    charCount charSet (charSet.get ⟨i, hi⟩) = selectCount charSet.length i := by
  unfold charCount selectCount
  apply List.countP_congr
  intro b _
  have hpos : 0 < charSet.length := by omega
  have hidx : randomIndex charSet.length b < charSet.length := Nat.mod_lt _ hpos
  rw [pick_eq_get charSet b hidx]
  simp only [decide_eq_true_eq]
  rw [hnd.get_inj_iff]
  simp [Fin.ext_iff]

/-! ## Sampling, continued -/

/-- C15 as stated fails: the configuration with Length = 2^63 - 1 and only the
digits enabled passes Validate and every draw of the source succeeds, but with
the allocation limit 2^48 `make` panics before the loop: Generate consumes no
byte at all and returns no string. -/
theorem C15_generate_output_counterexample :
    cfgDigitsMaxLength.Validate = none ∧
      (∀ k : Nat, srcCounting k = .ok (Fin.ofNat (k + 27))) ∧
      ((New cfgDigitsMaxLength).Generate maxAlloc64 srcCounting).result =
        .error GoPanic.makesliceLenOutOfRange ∧
      ((New cfgDigitsMaxLength).Generate maxAlloc64 srcCounting).draws = 0 ∧
      (((New cfgDigitsMaxLength).Generate maxAlloc64 srcCounting).draws : Int) ≠
        cfgDigitsMaxLength.Length := by
  have hp := generate_panic cfgDigitsMaxLength maxAlloc64 srcCounting (by decide) (by decide)
  refine ⟨by decide, fun _ => rfl, by rw [hp], by rw [hp], ?_⟩
  rw [hp]
  decide

/-- C15 amended: for every valid configuration whose Length does not exceed the
allocation limit of `make`, with alphabet A = buildCharacterSet, and every
source whose draws 0 .. Length-1 yield the bytes b_0, b_1, ..., Generate makes
exactly Length calls to the source and returns, with a nil error, the string
of Length bytes whose i-th byte is A[b_i mod len(A)]. -/
theorem C15_generate_output (c : Config) (maxAlloc : Nat) (rnd : RandSource)
    (bs : Nat → Fin 256) (hv : c.Validate = none) (hL : c.Length ≤ (maxAlloc : Int))
    (hsrc : ∀ k : Nat, (k : Int) < c.Length → rnd k = .ok (bs k)) :
    ∃ pw, ((New c).Generate maxAlloc rnd).result = .ok (pw, none) ∧
      (((New c).Generate maxAlloc rnd).draws : Int) = c.Length ∧
      (pw.length : Int) = c.Length ∧
      ∀ i : Nat, (i : Int) < c.Length →
        ∃ h : (bs i).val % (New c).buildCharacterSet.length < (New c).buildCharacterSet.length,
          pw.get? i = some ((New c).buildCharacterSet.get
            ⟨(bs i).val % (New c).buildCharacterSet.length, h⟩) := by
  have hlen := ((validate_eq_none_iff c).1 hv).1
  have hpos := buildCharacterSet_length_pos c hv
  have hg := generate_ok c maxAlloc rnd hv (by omega)
    (fun k hk => ⟨bs k, hsrc k (by omega)⟩)
  refine ⟨_, by rw [hg], ?_, ?_, ?_⟩
  · rw [hg]
    simp only [Int.toNat_of_nonneg (le_of_lt hlen)]
  · simp only [List.length_map, List.length_range]
    omega
  · intro i hi
    have hidx : (bs i).val % (New c).buildCharacterSet.length <
        (New c).buildCharacterSet.length := Nat.mod_lt _ hpos
    refine ⟨hidx, ?_⟩
    have hin : i < c.Length.toNat := by omega
    rw [List.get?_eq_getElem?, List.getElem?_map, List.getElem?_range hin]
    simp only [Option.map_some', hsrc i hi, drawnByte]
    rw [pick_eq_get _ _ hidx]
    rfl

/-- C15 amended, at a concrete input: the lowercase-only configuration of
length 3 and the bytes 27, 28, 29 give three calls and the bytes at indices 1,
2, 3. -/
theorem C15_generate_output_witness :
    cfgLowerOnly.Validate = none ∧ cfgLowerOnly.Length ≤ (maxAlloc64 : Int) ∧
      ∃ pw, ((New cfgLowerOnly).Generate maxAlloc64 srcCounting).result = .ok (pw, none) ∧
        (((New cfgLowerOnly).Generate maxAlloc64 srcCounting).draws : Int) =
          cfgLowerOnly.Length ∧
        (pw.length : Int) = cfgLowerOnly.Length ∧
        ∀ i : Nat, (i : Int) < cfgLowerOnly.Length →
          ∃ h : (Fin.ofNat (i + 27) : Fin 256).val % (New cfgLowerOnly).buildCharacterSet.length <
              (New cfgLowerOnly).buildCharacterSet.length,
            pw.get? i = some ((New cfgLowerOnly).buildCharacterSet.get
              ⟨(Fin.ofNat (i + 27) : Fin 256).val %
                (New cfgLowerOnly).buildCharacterSet.length, h⟩) :=
  ⟨by decide, by decide,
    C15_generate_output cfgLowerOnly maxAlloc64 srcCounting (fun k => Fin.ofNat (k + 27))
      (by decide) (by decide) (fun _ _ => rfl)⟩

/-- C16: for every valid configuration the alphabet size n does not divide 256,
and the sampling is biased: the number of byte values 0..255 that select the
first alphabet character (index 0) is exactly one more than the number that
select the last one (index n - 1). -/
theorem C16_modulo_bias (c : Config) (hv : c.Validate = none) :
    ¬ (New c).buildCharacterSet.length ∣ 256 ∧
      selectCount (New c).buildCharacterSet.length 0 =
        selectCount (New c).buildCharacterSet.length
          ((New c).buildCharacterSet.length - 1) + 1 ∧
      ∃ (h0 : 0 < (New c).buildCharacterSet.length)
        (h1 : (New c).buildCharacterSet.length - 1 < (New c).buildCharacterSet.length),
        charCount (New c).buildCharacterSet ((New c).buildCharacterSet.get ⟨0, h0⟩) =
          charCount (New c).buildCharacterSet
            ((New c).buildCharacterSet.get ⟨(New c).buildCharacterSet.length - 1, h1⟩) + 1 := by
  have hpos := buildCharacterSet_length_pos c hv
  have hnd := buildCharacterSet_not_dvd c hv
  have hlast : (New c).buildCharacterSet.length - 1 < (New c).buildCharacterSet.length := by
    omega
  have hmod : 256 % (New c).buildCharacterSet.length ≠ 0 :=
    fun h => hnd (Nat.dvd_of_mod_eq_zero h)
  have hlt : 256 % (New c).buildCharacterSet.length < (New c).buildCharacterSet.length :=
    Nat.mod_lt _ hpos
  have hidx : selectCount (New c).buildCharacterSet.length 0 =
      selectCount (New c).buildCharacterSet.length
        ((New c).buildCharacterSet.length - 1) + 1 := by
    rw [selectCount_eq _ 0 hpos hpos, selectCount_eq _ _ hpos hlast]
    have h1 : 0 < 256 % (New c).buildCharacterSet.length := by omega
    have h2 : ¬ (New c).buildCharacterSet.length - 1 <
        256 % (New c).buildCharacterSet.length := by omega
    simp only [h1, h2, if_true, if_false]
  refine ⟨hnd, hidx, hpos, hlast, ?_⟩
  rw [charCount_eq_selectCount _ (buildCharacterSet_nodup c) 0 hpos,
    charCount_eq_selectCount _ (buildCharacterSet_nodup c) _ hlast]
  exact hidx

/-- C16 at a concrete input: the default configuration, whose alphabet has 85
bytes. -/
theorem C16_modulo_bias_witness :
    NewConfig.Validate = none ∧
      ¬ (New NewConfig).buildCharacterSet.length ∣ 256 ∧
      selectCount (New NewConfig).buildCharacterSet.length 0 =
        selectCount (New NewConfig).buildCharacterSet.length
          ((New NewConfig).buildCharacterSet.length - 1) + 1 :=
  ⟨by decide, (C16_modulo_bias NewConfig (by decide)).1,
    (C16_modulo_bias NewConfig (by decide)).2.1⟩

/-- C19 as stated fails: the configuration with Length = 2^63 - 1 and only the
digits enabled passes Validate, position 0 is below Length and the digit 9
(byte 57) is in the alphabet, but with the allocation limit 2^48 no random
source makes Generate return a password, since `make` panics for every
source. -/
theorem C19_every_char_reachable_counterexample :
    cfgDigitsMaxLength.Validate = none ∧
      ((0 : Nat) : Int) < cfgDigitsMaxLength.Length ∧
      57 ∈ (New cfgDigitsMaxLength).buildCharacterSet ∧
      ¬ ∃ (rnd : RandSource) (pw : GoString),
          ((New cfgDigitsMaxLength).Generate maxAlloc64 rnd).result = .ok (pw, none) ∧
            (pw.length : Int) = cfgDigitsMaxLength.Length ∧ pw.get? 0 = some 57 := by
  refine ⟨by decide, by decide, by decide, ?_⟩
  rintro ⟨rnd, pw, h, _⟩
  rw [generate_panic cfgDigitsMaxLength maxAlloc64 rnd (by decide) (by decide)] at h
  cases h

/-- C19 amended: for every valid configuration the alphabet has at most
85 <= 256 bytes and every alphabet index j is b mod len(alphabet) for some byte
value b; and when Length does not exceed the allocation limit of `make`, for
every position i < Length and every alphabet character ch some random source
makes Generate return, with a nil error, a password of Length bytes with ch at
position i. -/
theorem C19_every_char_reachable (c : Config) (maxAlloc : Nat) (hv : c.Validate = none) :
    (New c).buildCharacterSet.length ≤ 85 ∧
    (∀ j, j < (New c).buildCharacterSet.length →
      ∃ b : Fin 256, randomIndex (New c).buildCharacterSet.length b = j) ∧
    (c.Length ≤ (maxAlloc : Int) →
      ∀ (i ch : Nat), (i : Int) < c.Length → ch ∈ (New c).buildCharacterSet →
        ∃ (rnd : RandSource) (pw : GoString),
          ((New c).Generate maxAlloc rnd).result = .ok (pw, none) ∧
            (pw.length : Int) = c.Length ∧ pw.get? i = some ch) := by
  have hlen := ((validate_eq_none_iff c).1 hv).1
  have hpos := buildCharacterSet_length_pos c hv
  have hle : (New c).buildCharacterSet.length ≤ 85 := by
    rw [buildCharacterSet_length_eq]
    split_ifs <;> omega
  have hidx : ∀ j, j < (New c).buildCharacterSet.length →
      ∃ b : Fin 256, randomIndex (New c).buildCharacterSet.length b = j := by
    intro j hj
    exact ⟨⟨j, by omega⟩, Nat.mod_eq_of_lt hj⟩
  refine ⟨hle, hidx, ?_⟩
  intro hL i ch hi hch
  obtain ⟨j, hj, hget⟩ := List.getElem_of_mem hch
  obtain ⟨b, hb⟩ := hidx j hj
  have hg := generate_ok c maxAlloc (fun _ => .ok b) hv (by omega) (fun _ _ => ⟨b, rfl⟩)
  refine ⟨fun _ => .ok b, _, by rw [hg], ?_, ?_⟩
  · simp only [List.length_map, List.length_range]
    omega
  · have hin : i < c.Length.toNat := by omega
    have hr : randomIndex (New c).buildCharacterSet.length b <
        (New c).buildCharacterSet.length := by omega
    rw [List.get?_eq_getElem?, List.getElem?_map, List.getElem?_range hin]
    simp only [Option.map_some', drawnByte]
    rw [pick_eq_get _ _ hr]
    simp only [hb, List.get_eq_getElem, hget]

/-- C19 amended, at a concrete input: the default configuration can return a
password whose position 15 holds the last symbol of the alphabet, byte 126. -/
theorem C19_every_char_reachable_witness :
    NewConfig.Validate = none ∧ NewConfig.Length ≤ (maxAlloc64 : Int) ∧
      ∃ (rnd : RandSource) (pw : GoString),
        ((New NewConfig).Generate maxAlloc64 rnd).result = .ok (pw, none) ∧
          (pw.length : Int) = NewConfig.Length ∧ pw.get? 15 = some 126 :=
  ⟨by decide, by decide,
    (C19_every_char_reachable NewConfig maxAlloc64 (by decide)).2.2 (by decide) 15 126
      (by decide) (by decide)⟩

/-! ## Consistency of validation, alphabet and help text -/

/-- C12, evaluated on the code: the symbols printed by the help message are
`!@#$%^&*()-_=+[]{}<>?/`, the constant SymbolChars is that string followed by
the tilde (byte 126), which the help message does not list, and Generate on
the default configuration with every drawn byte equal to 84 (allocation limit
2^48) returns a password of sixteen tildes. -/
theorem C12_help_symbols_differ :
    helpSymbols = goBytes "!@#$%^&*()-_=+[]\x7b\x7d<>?/" ∧
      SymbolChars = helpSymbols ++ [126] ∧
      126 ∉ helpSymbols ∧
      NewConfig.Validate = none ∧
      ((New NewConfig).Generate maxAlloc64 srcAlways84).result =
        .ok (List.replicate 16 126, none) := by
  refine ⟨by decide, by decide, by decide, by decide, ?_⟩
  rw [generate_ok NewConfig maxAlloc64 srcAlways84 (by decide) (by decide)
    (fun _ _ => ⟨84, rfl⟩)]
  rfl

/-- C17: buildCharacterSet is empty exactly when all four exclude toggles are
true; so when Validate succeeds the alphabet is non-empty and Length > 0, and
for every configuration, allocation limit and random source Generate never
returns the error `no character sets available for password generation`, never
returns an error of a guard of generateSecurePassword (an unwrapped-message
error wrapped once), never panics on the modulo (division by zero) or on an
index (out of range): the only panic there can be is that of `make`, on a
valid configuration whose Length exceeds the allocation limit; and on a valid
configuration every index b mod len(charSet) is within bounds with
len(charSet) non-zero. -/
theorem C17_validation_alphabet_agree (c : Config) (maxAlloc : Nat) (rnd : RandSource) :
    ((New c).buildCharacterSet = [] ↔
      (c.NoLower = true ∧ c.NoUpper = true ∧ c.NoDigits = true ∧ c.NoSymbols = true)) ∧
    (c.Validate = none →
      (New c).buildCharacterSet ≠ [] ∧ 0 < c.Length ∧
        ∀ b : Fin 256, (New c).buildCharacterSet.length ≠ 0 ∧
          randomIndex (New c).buildCharacterSet.length b <
            (New c).buildCharacterSet.length) ∧
    (∀ pw, ((New c).Generate maxAlloc rnd).result ≠
      .ok (pw, some (GoError.errorf "no character sets available for password generation"))) ∧
    (∀ pw msg inner, ((New c).Generate maxAlloc rnd).result ≠
      .ok (pw, some (GoError.wrapf msg (GoError.errorf inner)))) ∧
    ((New c).Generate maxAlloc rnd).result ≠ .error GoPanic.divideByZero ∧
    ((New c).Generate maxAlloc rnd).result ≠ .error GoPanic.indexOutOfRange ∧
    (∀ p, ((New c).Generate maxAlloc rnd).result = .error p →
      p = GoPanic.makesliceLenOutOfRange ∧ c.Validate = none ∧ (maxAlloc : Int) < c.Length) := by
  have hempty : (New c).buildCharacterSet = [] ↔
      (c.NoLower = true ∧ c.NoUpper = true ∧ c.NoDigits = true ∧ c.NoSymbols = true) := by
    rw [← List.length_eq_zero, buildCharacterSet_length_eq]
    rcases c with ⟨len, a, b, c, d, e, f⟩
    cases a <;> cases b <;> cases c <;> cases d <;> simp
  have hpanic : ∀ p, ((New c).Generate maxAlloc rnd).result = .error p →
      p = GoPanic.makesliceLenOutOfRange ∧ c.Validate = none ∧
        (maxAlloc : Int) < c.Length := by
    intro p hres
    cases hv : c.Validate with
    | some e0 =>
      rw [generate_invalid c maxAlloc rnd e0 hv] at hres
      cases hres
    | none =>
      have hlen := ((validate_eq_none_iff c).1 hv).1
      by_cases hL : c.Length.toNat ≤ maxAlloc
      · obtain ⟨pw2, err, hr, _⟩ := generate_returns c maxAlloc rnd hv hL
        rw [hr] at hres
        cases hres
      · rw [generate_panic c maxAlloc rnd hv (by omega)] at hres
        simp only [Except.error.injEq] at hres
        exact ⟨hres.symm, rfl, by omega⟩
  have herr : ∀ pw e0, ((New c).Generate maxAlloc rnd).result = .ok (pw, some e0) →
      (e0 = GoError.errorf "password length must be greater than 0" ∨
        e0 = GoError.errorf "at least one character type must be enabled") ∨
      ∃ msg1 msg2 e1, e0 = GoError.wrapf msg1 (GoError.wrapf msg2 e1) := by
    intro pw e0 hres
    cases hv : c.Validate with
    | some e1 =>
      rw [generate_invalid c maxAlloc rnd e1 hv] at hres
      simp only [Except.ok.injEq, Prod.mk.injEq, Option.some.injEq] at hres
      left
      rw [← hres.2]
      exact validate_error_cases c e1 hv
    | none =>
      by_cases hL : c.Length.toNat ≤ maxAlloc
      · obtain ⟨pw2, err, hr, _, _, hw⟩ := generate_returns c maxAlloc rnd hv hL
        rw [hr] at hres
        simp only [Except.ok.injEq, Prod.mk.injEq] at hres
        right
        exact hw e0 hres.2
      · rw [generate_panic c maxAlloc rnd hv (by omega)] at hres
        cases hres
  refine ⟨hempty, ?_, ?_, ?_, ?_, ?_, hpanic⟩
  · intro hv
    have h := (validate_eq_none_iff c).1 hv
    have hpos := buildCharacterSet_length_pos c hv
    refine ⟨fun h0 => h.2 (hempty.1 h0), h.1, fun b => ⟨by omega, Nat.mod_lt _ hpos⟩⟩
  · intro pw hres
    rcases herr pw _ hres with (h0 | h0) | ⟨m1, m2, e1, h0⟩
    · exact absurd h0 (by decide)
    · exact absurd h0 (by decide)
    · cases h0
  · intro pw msg inner hres
    rcases herr pw _ hres with (h0 | h0) | ⟨m1, m2, e1, h0⟩
    · cases h0
    · cases h0
    · cases h0
  · intro hres
    have := (hpanic _ hres).1
    cases this
  · intro hres
    have := (hpanic _ hres).1
    cases this

/-- C17 at a concrete input: the lowercase-only configuration is valid, its
alphabet is non-empty and the byte 255 selects an index within bounds. -/
theorem C17_validation_alphabet_agree_witness :
    cfgLowerOnly.Validate = none ∧
      (New cfgLowerOnly).buildCharacterSet ≠ [] ∧ 0 < cfgLowerOnly.Length ∧
      randomIndex (New cfgLowerOnly).buildCharacterSet.length 255 <
        (New cfgLowerOnly).buildCharacterSet.length :=
  ⟨by decide,
    ((C17_validation_alphabet_agree cfgLowerOnly maxAlloc64 srcCounting).2.1 (by decide)).1,
    ((C17_validation_alphabet_agree cfgLowerOnly maxAlloc64 srcCounting).2.1 (by decide)).2.1,
    (((C17_validation_alphabet_agree cfgLowerOnly maxAlloc64 srcCounting).2.1
      (by decide)).2.2 255).2⟩

/-! ## Characters -/

/-- C18: each of the four category strings is duplicate-free, the four are
pairwise disjoint, and for every configuration the alphabet returned by
buildCharacterSet contains no byte twice, so its length is the number of
distinct characters it holds. -/
theorem C18_alphabet_nodup (c : Config) :
    (LowerChars.Nodup ∧ UpperChars.Nodup ∧ DigitChars.Nodup ∧ SymbolChars.Nodup) ∧
    (LowerChars.Disjoint UpperChars ∧ LowerChars.Disjoint DigitChars ∧
      LowerChars.Disjoint SymbolChars ∧ UpperChars.Disjoint DigitChars ∧
      UpperChars.Disjoint SymbolChars ∧ DigitChars.Disjoint SymbolChars) ∧
    (New c).buildCharacterSet.Nodup ∧
    (New c).buildCharacterSet.length = (New c).buildCharacterSet.toFinset.card := by
  have hnd := buildCharacterSet_nodup c
  have hdisj : ∀ l1 l2 : GoString, (∀ a ∈ l1, a ∉ l2) → l1.Disjoint l2 :=
    fun l1 l2 h a h1 h2 => h a h1 h2
  refine ⟨⟨by decide, by decide, by decide, by decide⟩, ⟨?_, ?_, ?_, ?_, ?_, ?_⟩, hnd,
    (List.toFinset_card_of_nodup hnd).symm⟩
  · exact hdisj _ _ (by decide)
  · exact hdisj _ _ (by decide)
  · exact hdisj _ _ (by decide)
  · exact hdisj _ _ (by decide)
  · exact hdisj _ _ (by decide)
  · exact hdisj _ _ (by decide)

/-- C20: every byte of every category string, hence of every alphabet and of
every string returned by Generate (for any configuration, allocation limit and
random source), is a printable ASCII code 33..126; so each alphabet and each
password is the UTF-8 encoding of a text with exactly one character per byte:
the byte at index i is the i-th character, and the length in bytes equals the
length in characters. On a valid configuration whose Length is within the
allocation limit Generate does return, a full password of Length characters
when the draws succeed. -/
theorem C20_printable_ascii (c : Config) (maxAlloc : Nat) (rnd : RandSource) :
    (∀ b ∈ LowerChars ++ UpperChars ++ DigitChars ++ SymbolChars, 33 ≤ b ∧ b ≤ 126) ∧
    (∀ b ∈ (New c).buildCharacterSet, 33 ≤ b ∧ b ≤ 126) ∧
    (goBytes (textOfBytes (New c).buildCharacterSet) = (New c).buildCharacterSet ∧
      (textOfBytes (New c).buildCharacterSet).length = (New c).buildCharacterSet.length ∧
      ∀ i, (textOfBytes (New c).buildCharacterSet).data.get? i =
        ((New c).buildCharacterSet.get? i).map Char.ofNat) ∧
    (∀ pw err, ((New c).Generate maxAlloc rnd).result = .ok (pw, err) →
      (∀ b ∈ pw, 33 ≤ b ∧ b ≤ 126) ∧
        goBytes (textOfBytes pw) = pw ∧ (textOfBytes pw).length = pw.length) ∧
    (c.Validate = none → c.Length ≤ (maxAlloc : Int) →
      ∃ pw err, ((New c).Generate maxAlloc rnd).result = .ok (pw, err) ∧
        ((∀ k : Nat, (k : Int) < c.Length → ∃ b, rnd k = .ok b) →
          err = none ∧ (pw.length : Int) = c.Length ∧
            ((textOfBytes pw).length : Int) = c.Length) ∧
        (∀ b ∈ pw, 33 ≤ b ∧ b ≤ 126) ∧
        goBytes (textOfBytes pw) = pw ∧ (textOfBytes pw).length = pw.length) := by
  have hA := buildCharacterSet_printable c
  have hA2 := goBytes_textOfBytes (New c).buildCharacterSet
    (fun b hb => by have := hA b hb; omega)
  have hret : ∀ pw err, ((New c).Generate maxAlloc rnd).result = .ok (pw, err) →
      (∀ b ∈ pw, 33 ≤ b ∧ b ≤ 126) ∧
        goBytes (textOfBytes pw) = pw ∧ (textOfBytes pw).length = pw.length := by
    intro pw err hr
    have hmem := generate_result_mem c maxAlloc rnd pw err hr
    have hpw : ∀ b ∈ pw, 33 ≤ b ∧ b ≤ 126 := fun b hb => hA b (hmem b hb)
    have hpw2 := goBytes_textOfBytes pw (fun b hb => by have := hpw b hb; omega)
    exact ⟨hpw, hpw2.1, hpw2.2⟩
  refine ⟨by decide, hA, ⟨hA2.1, hA2.2, ?_⟩, hret, ?_⟩
  · intro i
    simp [textOfBytes, List.get?_eq_getElem?]
  · intro hv hL
    have hlen := ((validate_eq_none_iff c).1 hv).1
    obtain ⟨pw, err, hr, _, hfull, _⟩ := generate_returns c maxAlloc rnd hv (by omega)
    obtain ⟨hpw, hpw1, hpw2⟩ := hret pw err hr
    refine ⟨pw, err, hr, ?_, hpw, hpw1, hpw2⟩
    intro hok
    obtain ⟨h1, h2⟩ := hfull hok
    exact ⟨h1, h2, by rw [hpw2]; exact h2⟩

/-- C20 at a concrete input: the three bytes returned for the lowercase-only
configuration are printable ASCII and encode a text of three characters. -/
theorem C20_printable_ascii_witness :
    cfgLowerOnly.Validate = none ∧ cfgLowerOnly.Length ≤ (maxAlloc64 : Int) ∧
      ∃ pw err, ((New cfgLowerOnly).Generate maxAlloc64 srcCounting).result = .ok (pw, err) ∧
        ((∀ k : Nat, (k : Int) < cfgLowerOnly.Length → ∃ b, srcCounting k = .ok b) →
          err = none ∧ (pw.length : Int) = cfgLowerOnly.Length ∧
            ((textOfBytes pw).length : Int) = cfgLowerOnly.Length) ∧
        (∀ b ∈ pw, 33 ≤ b ∧ b ≤ 126) ∧
        goBytes (textOfBytes pw) = pw ∧ (textOfBytes pw).length = pw.length :=
  ⟨by decide, by decide,
    (C20_printable_ascii cfgLowerOnly maxAlloc64 srcCounting).2.2.2.2 (by decide) (by decide)⟩

end Randpass
